import Mathlib

/-!
Shallow embedding of `magentic/chatprompt.py`: the chat-prompt template engine
(`BaseChatPromptFunction`, `ChatPromptFunction`, `AsyncChatPromptFunction`, the
`chatprompt` decorator factory, and `escape_braces`), together with models of
the collaborators the module calls into (`split_union_type`, `RetryChatModel`,
the message-template renderer and the signature-binding rules), each modelled
from the specification where its code is not part of this source tree.
-/

/-- Opening curly brace character, written by code point. -/
def obrace : Char := '\x7b'

/-- Closing curly brace character, written by code point. -/
def cbrace : Char := '\x7d'

/-- Modelled from the spec: a type descriptor, as consumed by the
Return-Type Resolver (`magentic.typing`, not part of this source tree).
A declared return type is either a non-union base type (named) or a
one-level union of member descriptors. -/
inductive Ty where
  | base (name : String)
  | union (members : List Ty)

/-- Decidable syntactic equality of type descriptors. -/
def Ty.decEq : (a b : Ty) → Decidable (a = b)
  | .base s, .base t =>
    if h : s = t then .isTrue (by rw [h]) else .isFalse (by simp [h])
  | .base _, .union _ => .isFalse (by intro h; exact Ty.noConfusion h)
  | .union _, .base _ => .isFalse (by intro h; exact Ty.noConfusion h)
  | .union [], .union [] => .isTrue rfl
  | .union [], .union (_ :: _) => .isFalse (by
      intro h
      injection h with h2
      exact List.noConfusion h2)
  | .union (_ :: _), .union [] => .isFalse (by
      intro h
      injection h with h2
      exact List.noConfusion h2)
  | .union (x :: xs), .union (y :: ys) =>
    match Ty.decEq x y, Ty.decEq (.union xs) (.union ys) with
    | .isTrue h1, .isTrue h2 => .isTrue (by
        injection h2 with h3
        rw [h1, h3])
    | .isFalse h1, _ => .isFalse (by
        intro h
        injection h with h2
        injection h2 with h3 h4
        exact h1 h3)
    | _, .isFalse h2 => .isFalse (by
        intro h
        injection h with hh
        injection hh with h3 h4
        exact h2 (by rw [h4]))

instance : DecidableEq Ty := Ty.decEq

/-- Order-preserving deduplication keeping the first occurrence of each
element. -/
def dedupFirst : List Ty → List Ty
  | [] => []
  | t :: rest => t :: dedupFirst (rest.filter (fun u => u ≠ t))
termination_by l => l.length
decreasing_by
  simp only [List.length_cons]
  exact Nat.lt_succ_of_le (List.length_filter_le _ _)

/-- Modelled from the spec: `split_union_type` (in `magentic.typing`, not part
of this source tree) produces the Output Variant Set: a deduplicated,
order-preserving flattening of exactly one level of union nesting; a non-union
type yields a singleton. -/
def split_union_type : Ty → List Ty
  | .union ms => dedupFirst ms
  | t => [t]

/-- An argument value: an integer or a string, with the string rendering
Python's formatting would give it. -/
inductive Value where
  | int (n : Int)
  | str (s : String)
deriving DecidableEq, Repr

/-- String representation of a value as substituted into a template. -/
def Value.toStr : Value → String
  | .int n => toString n
  | .str s => s

/-- A declared parameter: a name and an optional default value
(mirrors `inspect.Parameter` for positional-or-keyword parameters). -/
structure Param where
  name : String
  default : Option Value
deriving DecidableEq, Repr

/-- Binding errors raised by `inspect.Signature.bind` (Python runtime
semantics): the call-site arguments do not satisfy the declared signature. -/
inductive BindError where
  | missingRequired (name : String)
  | unexpectedKeyword (name : String)
  | tooManyPositional
  | multipleValues (name : String)
deriving DecidableEq, Repr

/-- Resolve the value bound to the parameter at position `i`: a positional
argument if one covers position `i`, else a keyword argument matching the
parameter name, else the declared default; positional and keyword together
is an error, and a required parameter left uncovered is an error
(mirrors `inspect.Signature.bind` followed by `apply_defaults`). -/
def bindParam (i : Nat) (p : Param) (args : List Value)
    (kwargs : List (String × Value)) : Except BindError Value :=
  match args.get? i, kwargs.lookup p.name with
  | some _, some _ => .error (.multipleValues p.name)
  | some v, none => .ok v
  | none, some v => .ok v
  | none, none =>
    match p.default with
    | some d => .ok d
    | none => .error (.missingRequired p.name)

/-- Bind every parameter in order, numbering positions from `i`. -/
def bindAll (params : List Param) (i : Nat) (args : List Value)
    (kwargs : List (String × Value)) :
    Except BindError (List (String × Value)) :=
  match params with
  | [] => .ok []
  | p :: rest => do
    let v ← bindParam i p args kwargs
    let tail ← bindAll rest (i + 1) args kwargs
    pure ((p.name, v) :: tail)

/-- Modelled from the Python runtime semantics of
`inspect.Signature.bind(*args, **kwargs)` followed by
`BoundArguments.apply_defaults()`: reject excess positional arguments and
unknown keywords, then bind each declared parameter in order. -/
def bind_apply_defaults (params : List Param) (args : List Value)
    (kwargs : List (String × Value)) :
    Except BindError (List (String × Value)) :=
  if params.length < args.length then .error .tooManyPositional
  else
    match (kwargs.map Prod.fst).find?
        (fun k => !((params.map Param.name).contains k)) with
    | some k => .error (.unexpectedKeyword k)
    | none => bindAll params 0 args kwargs

/-- Template rendering failures (Python `str.format` semantics). -/
inductive TemplateError where
  | missingKey (name : String)
  | unmatchedOpen
  | singleClose
deriving DecidableEq, Repr

/-- Modelled from the spec and the Python `str.format` contract used by the
message templates: scan the content; a doubled brace renders as one literal
brace; an opening brace starts a placeholder whose name is looked up in the
environment (failure if absent); a lone closing brace or an unterminated
placeholder is an error. -/
def renderChars (env : String → Option String) : List Char → Except TemplateError (List Char)
  | [] => .ok []
  | c :: cs =>
    if c = obrace then
      match cs with
      | [] => .error .unmatchedOpen
      | c2 :: cs2 =>
        if c2 = obrace then
          (fun t => obrace :: t) <$> renderChars env cs2
        else
          let field := (c2 :: cs2).takeWhile (fun a => a ≠ cbrace)
          if field.length = (c2 :: cs2).length then .error .unmatchedOpen
          else
            match env (String.mk field) with
            | none => .error (.missingKey (String.mk field))
            | some v =>
              (fun t => v.data ++ t) <$>
                renderChars env ((c2 :: cs2).drop (field.length + 1))
    else if c = cbrace then
      match cs with
      | [] => .error .singleClose
      | c2 :: cs2 =>
        if c2 = cbrace then
          (fun t => cbrace :: t) <$> renderChars env cs2
        else .error .singleClose
    else
      (fun t => c :: t) <$> renderChars env cs
termination_by l => l.length
decreasing_by
  · simp only [List.length_cons]
    omega
  · simp only [List.length_drop, List.length_cons]
    omega
  · simp only [List.length_cons]
    omega
  · simp only [List.length_cons]
    omega

/-- Replace every non-overlapping occurrence of the pattern in the input with
the replacement, scanning left to right (Python `str.replace` semantics for a
non-empty pattern). -/
def replaceStr (s pat rep : List Char) : List Char :=
  match s with
  | [] => []
  | c :: rest =>
    if pat ≠ [] ∧ pat.isPrefixOf (c :: rest) then
      rep ++ replaceStr ((c :: rest).drop pat.length) pat rep
    else
      c :: replaceStr rest pat rep
termination_by s.length
decreasing_by
  · rename_i h
    simp only [List.length_drop, List.length_cons]
    have : pat.length ≠ 0 := by
      intro hl
      exact h.1 (List.eq_nil_of_length_eq_zero hl)
    omega
  · simp only [List.length_cons]
    omega

/-- Source `escape_braces`: replace each opening brace with a doubled opening
brace, then each closing brace with a doubled closing brace. -/
def escape_braces (text : List Char) : List Char :=
  replaceStr (replaceStr text [obrace] [obrace, obrace]) [cbrace] [cbrace, cbrace]

/-- A message: a role tag and a content string, held as a character list
(a template before rendering, concrete content after). -/
structure Message where
  role : String
  content : List Char
deriving DecidableEq

/-- Render one message template against bound arguments
(models `Message.format(**bound_args.arguments)`, whose implementation is
the Python format substitution modelled by `renderChars`). -/
def Message.formatWith (m : Message) (bound : List (String × Value)) :
    Except TemplateError Message := do
  let rendered ← renderChars (fun n => (bound.lookup n).map Value.toStr) m.content
  pure { role := m.role, content := rendered }

/-- A backend failure: either a recoverable validation failure (the reply
could not be coerced into any requested output variant) or a non-recoverable
transport failure. -/
inductive BackendError where
  | validation
  | transport
deriving DecidableEq

/-- A backend reply exposing its content payload. -/
structure Reply where
  content : String
deriving DecidableEq

/-- The request handed to the backend on one `complete`/`acomplete` call:
rendered messages, the side-callable list (callables modelled by name), the
Output Variant Set and the stop sequences. -/
structure Request where
  messages : List Message
  functions : List String
  output_types : List Ty
  stop : Option (List String)
deriving DecidableEq

/-- A simulated backend (`ChatModel`): deterministic outcome of its blocking
`complete` and suspending `acomplete` entry points as a function of the
request and of how many prior attempts this invocation already made (the
attempt index models backend state observed across retries). -/
structure ChatModel where
  complete : Request → Nat → Except BackendError Reply
  acomplete : Request → Nat → Except BackendError Reply

/-- The effective backend handle resolved by the `model` property: either the
underlying handle unchanged, or the underlying handle wrapped by
`RetryChatModel` with a retry bound. -/
inductive EffectiveModel where
  | plain (m : ChatModel)
  | retry (m : ChatModel) (max_retries : Nat)

/-- The underlying `ChatModel` inside an effective handle. -/
def EffectiveModel.underlying : EffectiveModel → ChatModel
  | .plain m => m
  | .retry m _ => m

/-- Source `BaseChatPromptFunction.__init__` state: name, parameter list,
declared return type, message templates, side-callables, stop sequences,
retry bound, optional explicit backend, plus the Output Variant Set computed
once at construction; `wrapperName`/`wrapperDoc` are the introspectable
metadata attributes later overwritten by `update_wrapper`. -/
structure BaseChatPromptFunction where
  _name : String
  parameters : List Param
  return_type : Ty
  _messages : List Message
  _functions : List String
  _stop : Option (List String)
  _max_retries : Nat
  _model : Option ChatModel
  _return_types : List Ty
  wrapperName : String
  wrapperDoc : Option String

/-- Source `BaseChatPromptFunction.__init__`: store the configuration and
compute `_return_types = list(split_union_type(return_type))` once. -/
def mkBaseChatPromptFunction (name : String) (parameters : List Param)
    (return_type : Ty) (messages : List Message) (functions : List String)
    (stop : Option (List String)) (max_retries : Nat)
    (model : Option ChatModel) : BaseChatPromptFunction :=
  { _name := name
    parameters := parameters
    return_type := return_type
    _messages := messages
    _functions := functions
    _stop := stop
    _max_retries := max_retries
    _model := model
    _return_types := split_union_type return_type
    wrapperName := name
    wrapperDoc := none }

/-- Source `BaseChatPromptFunction.model` property: when `_max_retries` is
truthy, wrap `self._model or get_chat_model()` in a `RetryChatModel`;
otherwise return `self._model or get_chat_model()` unchanged. The
process-wide default returned by `get_chat_model()` at this call is passed
in as `globalDefault`. -/
def BaseChatPromptFunction.model (pf : BaseChatPromptFunction)
    (globalDefault : ChatModel) : EffectiveModel :=
  if pf._max_retries ≠ 0 then
    .retry (pf._model.getD globalDefault) pf._max_retries
  else
    .plain (pf._model.getD globalDefault)

/-- Source `BaseChatPromptFunction.functions` property:
`return self._functions.copy()` (value of the returned copy). -/
def BaseChatPromptFunction.functionsProp (pf : BaseChatPromptFunction) :
    List String :=
  pf._functions

/-- Source `BaseChatPromptFunction.return_types` property:
`return self._return_types.copy()` (value of the returned copy). -/
def BaseChatPromptFunction.returnTypesProp (pf : BaseChatPromptFunction) :
    List Ty :=
  pf._return_types

/-- Errors surfaced by a prompt-function invocation, by category. -/
inductive CallError where
  | binding (e : BindError)
  | template (e : TemplateError)
  | backend (e : BackendError)
deriving DecidableEq

/-- Source `BaseChatPromptFunction.format`: bind the arguments against the
stored signature, apply defaults, and render every message template with the
bound arguments. -/
def BaseChatPromptFunction.format (pf : BaseChatPromptFunction)
    (args : List Value) (kwargs : List (String × Value)) :
    Except CallError (List Message) :=
  match bind_apply_defaults pf.parameters args kwargs with
  | .error e => .error (.binding e)
  | .ok bound =>
    match pf._messages.mapM (fun m => m.formatWith bound) with
    | .error e => .error (.template e)
    | .ok msgs => .ok msgs

/-- The request a prompt-function sends to the backend: its rendered
messages together with the stored `_functions`, `_return_types` and `_stop`. -/
def BaseChatPromptFunction.buildRequest (pf : BaseChatPromptFunction)
    (msgs : List Message) : Request :=
  { messages := msgs
    functions := pf._functions
    output_types := pf._return_types
    stop := pf._stop }

/-- Modelled from the spec: the blocking side of `RetryChatModel` (not part
of this source tree). Issue the call; on a recoverable validation failure
reissue it while retries remain; a transport failure or a success is returned
at once. Returns the outcome and the number of backend calls made. -/
def retryLoopSync (m : ChatModel) (req : Request) (attempt : Nat) :
    Nat → Except BackendError Reply × Nat
  | 0 => (m.complete req attempt, 1)
  | n + 1 =>
    match m.complete req attempt with
    | .ok r => (.ok r, 1)
    | .error .transport => (.error .transport, 1)
    | .error .validation =>
      let (res, c) := retryLoopSync m req (attempt + 1) n
      (res, c + 1)

/-- Modelled from the spec: the suspending side of `RetryChatModel`, using
the backend's `acomplete` entry point. -/
def retryLoopAsync (m : ChatModel) (req : Request) (attempt : Nat) :
    Nat → Except BackendError Reply × Nat
  | 0 => (m.acomplete req attempt, 1)
  | n + 1 =>
    match m.acomplete req attempt with
    | .ok r => (.ok r, 1)
    | .error .transport => (.error .transport, 1)
    | .error .validation =>
      let (res, c) := retryLoopAsync m req (attempt + 1) n
      (res, c + 1)

/-- Run one blocking `complete` against the effective handle: a plain handle
makes exactly one backend call; a retry-wrapped handle runs the retry loop. -/
def runModelSync (em : EffectiveModel) (req : Request) :
    Except BackendError Reply × Nat :=
  match em with
  | .plain m => (m.complete req 0, 1)
  | .retry m n => retryLoopSync m req 0 n

/-- Run one suspending `acomplete` against the effective handle. -/
def runModelAsync (em : EffectiveModel) (req : Request) :
    Except BackendError Reply × Nat :=
  match em with
  | .plain m => (m.acomplete req 0, 1)
  | .retry m n => retryLoopAsync m req 0 n

/-- Source `ChatPromptFunction.__call__`: bind the arguments (a binding
failure raises before any backend contact), render the messages, resolve the
effective backend handle fresh from the current process-wide default, invoke
its blocking `complete`, and return the reply's content payload unchanged.
Returns the outcome and the number of backend calls made. -/
def ChatPromptFunction.call (pf : BaseChatPromptFunction)
    (globalDefault : ChatModel) (args : List Value)
    (kwargs : List (String × Value)) : Except CallError String × Nat :=
  match pf.format args kwargs with
  | .error e => (.error e, 0)
  | .ok msgs =>
    let (res, n) := runModelSync (pf.model globalDefault) (pf.buildRequest msgs)
    match res with
    | .ok r => (.ok r.content, n)
    | .error e => (.error (.backend e), n)

/-- Source `AsyncChatPromptFunction.__call__`: the suspending variant,
identical except that it awaits the backend's `acomplete`. -/
def AsyncChatPromptFunction.call (pf : BaseChatPromptFunction)
    (globalDefault : ChatModel) (args : List Value)
    (kwargs : List (String × Value)) : Except CallError String × Nat :=
  match pf.format args kwargs with
  | .error e => (.error e, 0)
  | .ok msgs =>
    let (res, n) := runModelAsync (pf.model globalDefault) (pf.buildRequest msgs)
    match res with
    | .ok r => (.ok r.content, n)
    | .error e => (.error (.backend e), n)

/-- A user-declared function as seen by the decorator factory: introspectable
metadata, signature, declared return annotation, and whether invoking it
suspends (is a coroutine function). -/
structure UserFunc where
  name : String
  doc : Option String
  params : List Param
  returnAnnotation : Ty
  isCoroutine : Bool

/-- Models `functools.update_wrapper(wrapper, func)`: copy the wrapped
function's introspectable metadata attributes onto the wrapper and return
the wrapper. -/
def update_wrapper (wrapper : BaseChatPromptFunction) (wrapped : UserFunc) :
    BaseChatPromptFunction :=
  { wrapper with wrapperName := wrapped.name, wrapperDoc := wrapped.doc }

/-- A produced prompt-function: the blocking or the suspending variant,
each a fresh `BaseChatPromptFunction`, not the original user function. -/
inductive PromptVariant where
  | sync (pf : BaseChatPromptFunction)
  | async (pf : BaseChatPromptFunction)

/-- Whether a produced prompt-function is the suspending variant. -/
def PromptVariant.isAsync : PromptVariant → Bool
  | .sync _ => false
  | .async _ => true

/-- The underlying prompt-function state of either variant. -/
def PromptVariant.toPF : PromptVariant → BaseChatPromptFunction
  | .sync pf => pf
  | .async pf => pf

/-- Source `chatprompt` decorator factory: inspect the function's signature;
if it is a coroutine function build an `AsyncChatPromptFunction`, else a
`ChatPromptFunction`, each from the function's name, parameters and return
annotation plus the caller-supplied configuration, then apply
`update_wrapper`. -/
def chatprompt (messages : List Message) (functions : List String)
    (stop : Option (List String)) (max_retries : Nat)
    (model : Option ChatModel) (func : UserFunc) : PromptVariant :=
  if func.isCoroutine then
    .async (update_wrapper
      (mkBaseChatPromptFunction func.name func.params func.returnAnnotation
        messages functions stop max_retries model) func)
  else
    .sync (update_wrapper
      (mkBaseChatPromptFunction func.name func.params func.returnAnnotation
        messages functions stop max_retries model) func)

/-- A heap of list cells, modelling Python list objects: cell indices are
references, cell contents are list values. -/
abbrev ListHeap (α : Type) : Type := List (List α)

/-- Read the list value stored at a reference. -/
def ListHeap.read {α : Type} (h : ListHeap α) (r : Nat) : List α :=
  (List.get? h r).getD []

/-- Mutate the list object at a reference in place. -/
def ListHeap.write {α : Type} (h : ListHeap α) (r : Nat) (v : List α) :
    ListHeap α :=
  List.set h r v

/-- Models `list.copy()`: allocate a fresh list object holding the same
value and return the new heap and the fresh reference. -/
def ListHeap.copyAlloc {α : Type} (h : ListHeap α) (r : Nat) :
    ListHeap α × Nat :=
  (h ++ [h.read r], h.length)

/-- Source `BaseChatPromptFunction.functions` property over the explicit
list heap: `return self._functions.copy()`, where `r` is the reference the
field `_functions` holds. -/
def functionsPropAlloc (h : ListHeap String) (r : Nat) :
    ListHeap String × Nat :=
  h.copyAlloc r

/-- Source `BaseChatPromptFunction.return_types` property over the explicit
list heap: `return self._return_types.copy()`, where `r` is the reference
the field `_return_types` holds. -/
def returnTypesPropAlloc (h : ListHeap Ty) (r : Nat) :
    ListHeap Ty × Nat :=
  h.copyAlloc r

/-- Expansion of one character under the brace-doubling escape. -/
def expandBrace (a : Char) : List Char :=
  if a = obrace then [obrace, obrace]
  else if a = cbrace then [cbrace, cbrace]
  else [a]

theorem replaceStr_singleton (c : Char) (rep : List Char) (s : List Char) :
    replaceStr s [c] rep = s.flatMap (fun a => if a = c then rep else [a]) := by
  induction s with
  | nil => simp [replaceStr]
  | cons a rest ih =>
    by_cases h : a = c
    · rw [replaceStr, if_pos ⟨List.cons_ne_nil _ _, by simp [List.isPrefixOf, h]⟩]
      simp [ih, h]
    · rw [replaceStr, if_neg (by
        rintro ⟨-, hpre⟩
        simp [List.isPrefixOf] at hpre
        exact h hpre.symm)]
      simp [ih, h]

theorem flatMap_open_close (s : List Char) :
    (s.flatMap (fun a => if a = obrace then [obrace, obrace] else [a])).flatMap
      (fun a => if a = cbrace then [cbrace, cbrace] else [a]) =
    s.flatMap expandBrace := by
  induction s with
  | nil => rfl
  | cons a rest ih =>
    simp only [List.flatMap_cons, List.flatMap_append, ih]
    congr 1
    by_cases h1 : a = obrace
    · subst h1; decide
    · by_cases h2 : a = cbrace
      · subst h2; decide
      · simp [expandBrace, h1, h2]

theorem escape_braces_eq_flatMap (s : List Char) :
    escape_braces s = s.flatMap expandBrace := by
  unfold escape_braces
  rw [replaceStr_singleton, replaceStr_singleton]
  exact flatMap_open_close s

theorem renderChars_flatMap_expand (env : String → Option String)
    (s : List Char) :
    renderChars env (s.flatMap expandBrace) = .ok s := by
  induction s with
  | nil => simp [renderChars]
  | cons a rest ih =>
    by_cases h1 : a = obrace
    · subst h1
      simp only [List.flatMap_cons]
      have he : expandBrace obrace = [obrace, obrace] := by decide
      rw [he]
      simp only [List.cons_append, List.nil_append]
      unfold renderChars
      simp [ih]
    · by_cases h2 : a = cbrace
      · subst h2
        simp only [List.flatMap_cons]
        have he : expandBrace cbrace = [cbrace, cbrace] := by decide
        rw [he]
        simp only [List.cons_append, List.nil_append]
        unfold renderChars
        simp [ih, show ¬ cbrace = obrace by decide]
      · simp only [List.flatMap_cons]
        have he : expandBrace a = [a] := by simp [expandBrace, h1, h2]
        rw [he]
        simp only [List.cons_append, List.nil_append]
        unfold renderChars
        simp [ih, h1, h2]

/-- C4: for every string, escaping it with the brace-doubling rule of
`escape_braces` and then rendering the result as a template yields the string
unchanged for every environment: each doubled brace renders to a single
literal brace and is never treated as a placeholder. -/
theorem escape_braces_roundtrip (env : String → Option String)
    (s : List Char) :
    renderChars env (escape_braces s) = .ok s := by
  rw [escape_braces_eq_flatMap]
  exact renderChars_flatMap_expand env s

theorem lookup_eq_none_of_forall_ne {β : Type} (n : String)
    (kwargs : List (String × β)) (h : ∀ q ∈ kwargs, q.1 ≠ n) :
    kwargs.lookup n = none := by
  induction kwargs with
  | nil => rfl
  | cons q rest ih =>
    rcases q with ⟨k, v⟩
    have hk : (n == k) = false :=
      beq_eq_false_iff_ne.mpr
        (fun hc => (h (k, v) (List.mem_cons_self _ rest)) hc.symm)
    simp only [List.lookup, hk]
    exact ih (fun p hp => h p (List.mem_cons_of_mem _ hp))

theorem bindAll_cons (p : Param) (rest : List Param) (i : Nat)
    (args : List Value) (kwargs : List (String × Value)) :
    bindAll (p :: rest) i args kwargs = (do
      let v ← bindParam i p args kwargs
      let tail ← bindAll rest (i + 1) args kwargs
      pure ((p.name, v) :: tail)) := rfl

theorem bindAll_append_default (front : List Param) (n : String) (d : Value)
    (args : List Value) (kwargs : List (String × Value)) (i : Nat)
    (ha : args.length = i + front.length)
    (hk : ∀ q ∈ kwargs, q.1 ≠ n) :
    bindAll (front ++ [⟨n, some d⟩]) i args kwargs =
      bindAll (front ++ [⟨n, some d⟩]) i (args ++ [d]) kwargs := by
  induction front generalizing i with
  | nil =>
    simp only [List.length_nil, Nat.add_zero] at ha
    have h1 : args[i]? = none := List.getElem?_eq_none (by omega)
    have h2 : (args ++ [d])[i]? = some d := by
      have hi : i = args.length := ha.symm
      subst hi
      rw [List.getElem?_append_right (le_refl _)]
      simp
    have h3 : kwargs.lookup n = none := lookup_eq_none_of_forall_ne n kwargs hk
    simp only [List.nil_append, bindAll_cons, bindAll, bindParam,
      List.get?_eq_getElem?, h1, h2, h3]
  | cons p front' ih =>
    have hip : i < args.length := by
      simp only [List.length_cons] at ha
      omega
    have hbp : bindParam i p (args ++ [d]) kwargs = bindParam i p args kwargs := by
      unfold bindParam
      rw [show ((args ++ [d]).get? i) = args.get? i by
        rw [List.get?_eq_getElem?, List.get?_eq_getElem?,
          List.getElem?_append_left hip]]
    simp only [List.cons_append, bindAll_cons]
    rw [hbp, ih (i + 1) (by simp only [List.length_cons] at ha; omega)]

theorem bind_apply_defaults_append_default (front : List Param) (n : String)
    (d : Value) (args : List Value) (kwargs : List (String × Value))
    (ha : args.length = front.length)
    (hk : ∀ q ∈ kwargs, q.1 ≠ n) :
    bind_apply_defaults (front ++ [⟨n, some d⟩]) args kwargs =
      bind_apply_defaults (front ++ [⟨n, some d⟩]) (args ++ [d]) kwargs := by
  unfold bind_apply_defaults
  have hlen : (front ++ [(⟨n, some d⟩ : Param)]).length = front.length + 1 := by
    simp
  rw [if_neg (by rw [hlen]; omega),
    if_neg (by rw [hlen, List.length_append, List.length_cons, List.length_nil]; omega)]
  cases he : (kwargs.map Prod.fst).find?
      (fun k => !(((front ++ [(⟨n, some d⟩ : Param)]).map Param.name).contains k)) with
  | some k => rfl
  | none =>
    exact bindAll_append_default front n d args kwargs 0 (by omega) hk

/-- C5: for a signature whose last parameter carries a default, a call that
omits the defaulted argument renders exactly the same message sequence as a
call that passes the declared default explicitly; concretely, for
`f(a: int, b: int = 2)` the call `f(1)` binds the arguments
`{a: 1, b: 2}`. -/
theorem default_binding (pf : BaseChatPromptFunction) (front : List Param)
    (n : String) (d : Value) (args : List Value)
    (kwargs : List (String × Value))
    (hp : pf.parameters = front ++ [⟨n, some d⟩])
    (ha : args.length = front.length)
    (hk : ∀ q ∈ kwargs, q.1 ≠ n) :
    pf.format args kwargs = pf.format (args ++ [d]) kwargs ∧
    bind_apply_defaults [⟨"a", none⟩, ⟨"b", some (.int 2)⟩] [.int 1] [] =
      .ok [("a", .int 1), ("b", .int 2)] := by
  constructor
  · unfold BaseChatPromptFunction.format
    rw [hp, bind_apply_defaults_append_default front n d args kwargs ha hk]
  · rfl

/-- Witness for C5 at the concrete signature `f(a, b = 2)` called as `f(1)`. -/
theorem default_binding_witness :
    (mkBaseChatPromptFunction "f" [⟨"a", none⟩, ⟨"b", some (.int 2)⟩]
        (.base "int") [⟨"user", ['h', 'i']⟩] [] none 0 none).format
        [.int 1] [] =
      (mkBaseChatPromptFunction "f" [⟨"a", none⟩, ⟨"b", some (.int 2)⟩]
        (.base "int") [⟨"user", ['h', 'i']⟩] [] none 0 none).format
        [.int 1, .int 2] [] ∧
    bind_apply_defaults [⟨"a", none⟩, ⟨"b", some (.int 2)⟩] [.int 1] [] =
      .ok [("a", .int 1), ("b", .int 2)] := by
  have h := default_binding
    (mkBaseChatPromptFunction "f" [⟨"a", none⟩, ⟨"b", some (.int 2)⟩]
      (.base "int") [⟨"user", ['h', 'i']⟩] [] none 0 none)
    [⟨"a", none⟩] "b" (.int 2) [.int 1] [] rfl rfl (by simp)
  simpa using h

theorem bindAll_ok_imp (params : List Param) (i : Nat) (args : List Value)
    (kwargs : List (String × Value)) (l : List (String × Value))
    (h : bindAll params i args kwargs = .ok l) :
    ∀ j p, params[j]? = some p →
      ∃ v, bindParam (i + j) p args kwargs = .ok v := by
  induction params generalizing i l with
  | nil =>
    intro j p hp
    simp at hp
  | cons q rest ih =>
    intro j p hp
    rw [bindAll_cons] at h
    cases hv : bindParam i q args kwargs with
    | error e => rw [hv] at h; simp [Bind.bind, Except.bind] at h
    | ok v =>
      rw [hv] at h
      cases ht : bindAll rest (i + 1) args kwargs with
      | error e => rw [ht] at h; simp [Bind.bind, Except.bind] at h
      | ok tl =>
        cases j with
        | zero =>
          simp only [List.getElem?_cons_zero, Option.some_inj] at hp
          subst hp
          exact ⟨v, by simpa using hv⟩
        | succ j' =>
          simp only [List.getElem?_cons_succ] at hp
          have := ih (i + 1) tl ht j' p hp
          rcases this with ⟨w, hw⟩
          exact ⟨w, by rw [show i + (j' + 1) = i + 1 + j' by omega]; exact hw⟩

theorem bind_apply_defaults_error_of_missing (params : List Param)
    (args : List Value) (kwargs : List (String × Value))
    (hreq : ∀ p ∈ params, p.default = none)
    (hnd : (params.map Param.name).Nodup)
    (hlt : args.length + kwargs.length < params.length) :
    ∃ e, bind_apply_defaults params args kwargs = .error e := by
  unfold bind_apply_defaults
  rw [if_neg (by omega)]
  cases he : (kwargs.map Prod.fst).find?
      (fun k => !((params.map Param.name).contains k)) with
  | some k => exact ⟨.unexpectedKeyword k, rfl⟩
  | none =>
    cases hb : bindAll params 0 args kwargs with
    | error e => exact ⟨e, rfl⟩
    | ok l =>
      exfalso
      -- some parameter beyond the positional arguments has a name absent
      -- from the keyword arguments
      have hex : ∃ p ∈ params.drop args.length,
          p.name ∉ kwargs.map Prod.fst := by
        by_contra hall
        push_neg at hall
        have hsub : (params.drop args.length).map Param.name ⊆
            kwargs.map Prod.fst := by
          intro x hx
          rcases List.mem_map.mp hx with ⟨p, hp, hpx⟩
          exact hpx ▸ hall p hp
        have hndrop : ((params.drop args.length).map Param.name).Nodup := by
          exact hnd.sublist ((List.drop_sublist _ _).map Param.name)
        have hle := (hndrop.subperm hsub).length_le
        simp only [List.length_map, List.length_drop] at hle
        omega
      rcases hex with ⟨p, hpmem, hpname⟩
      rcases List.getElem?_of_mem hpmem with ⟨j, hj⟩
      rw [List.getElem?_drop] at hj
      rcases bindAll_ok_imp params 0 args kwargs l hb (args.length + j) p
        (by simpa using hj) with ⟨v, hv⟩
      have h1 : args[args.length + j]? = none :=
        List.getElem?_eq_none (by omega)
      have h2 : kwargs.lookup p.name = none := by
        apply lookup_eq_none_of_forall_ne
        intro q hq hqn
        exact hpname (hqn ▸ List.mem_map_of_mem Prod.fst hq)
      have h3 : p.default = none :=
        hreq p (List.mem_of_mem_drop hpmem)
      rw [bindParam, Nat.zero_add, List.get?_eq_getElem?, h1, h2, h3] at hv
      simp at hv

/-- C1: for a signature with only required parameters, an invocation with
fewer arguments than declared yields a binding error synchronously, and the
backend is never contacted (zero `complete`/`acomplete` calls), for both the
blocking and the suspending variant. -/
theorem missing_args_binding_error (pf : BaseChatPromptFunction)
    (g : ChatModel) (args : List Value) (kwargs : List (String × Value))
    (hreq : ∀ p ∈ pf.parameters, p.default = none)
    (hnd : (pf.parameters.map Param.name).Nodup)
    (hlt : args.length + kwargs.length < pf.parameters.length) :
    ∃ e, ChatPromptFunction.call pf g args kwargs =
        (.error (.binding e), 0) ∧
      AsyncChatPromptFunction.call pf g args kwargs =
        (.error (.binding e), 0) := by
  rcases bind_apply_defaults_error_of_missing pf.parameters args kwargs
    hreq hnd hlt with ⟨e, he⟩
  have hf : pf.format args kwargs = .error (.binding e) := by
    unfold BaseChatPromptFunction.format
    rw [he]
  exact ⟨e, by unfold ChatPromptFunction.call; rw [hf],
    by unfold AsyncChatPromptFunction.call; rw [hf]⟩

/-- Witness for C1 at the one-required-parameter signature `f(a)` invoked
with no arguments. -/
theorem missing_args_binding_error_witness :
    ∃ e, ChatPromptFunction.call
        (mkBaseChatPromptFunction "f" [⟨"a", none⟩] (.base "str")
          [⟨"user", ['h', 'i']⟩] [] none 0 none)
        ⟨fun _ _ => .ok ⟨"r"⟩, fun _ _ => .ok ⟨"r"⟩⟩ [] [] =
        (.error (.binding e), 0) ∧
      AsyncChatPromptFunction.call
        (mkBaseChatPromptFunction "f" [⟨"a", none⟩] (.base "str")
          [⟨"user", ['h', 'i']⟩] [] none 0 none)
        ⟨fun _ _ => .ok ⟨"r"⟩, fun _ _ => .ok ⟨"r"⟩⟩ [] [] =
        (.error (.binding e), 0) :=
  missing_args_binding_error _ _ [] [] (by simp [mkBaseChatPromptFunction])
    (by simp [mkBaseChatPromptFunction]) (by simp [mkBaseChatPromptFunction])

theorem retryLoopSync_always_validation (m : ChatModel) (req : Request)
    (h : ∀ i, m.complete req i = .error .validation) :
    ∀ n attempt, retryLoopSync m req attempt n = (.error .validation, n + 1) := by
  intro n
  induction n with
  | zero => intro attempt; simp [retryLoopSync, h]
  | succ n ih =>
    intro attempt
    simp only [retryLoopSync, h attempt, ih (attempt + 1)]

/-- C3: with a retry bound of `N > 0` and a backend that always raises a
recoverable validation error, exactly `N + 1` backend calls occur before the
error is surfaced; with a retry bound of `0` the underlying backend handle is
used unchanged (no retry wrapper), exactly one backend call occurs, and the
error surfaces on the first failure. -/
theorem retry_bound (pf : BaseChatPromptFunction) (g : ChatModel)
    (args : List Value) (kwargs : List (String × Value))
    (msgs : List Message)
    (hfmt : pf.format args kwargs = .ok msgs)
    (hv : ∀ q i, (pf._model.getD g).complete q i = .error .validation) :
    (pf._max_retries ≠ 0 →
      ChatPromptFunction.call pf g args kwargs =
        (.error (.backend .validation), pf._max_retries + 1)) ∧
    (pf._max_retries = 0 →
      pf.model g = .plain (pf._model.getD g) ∧
      ChatPromptFunction.call pf g args kwargs =
        (.error (.backend .validation), 1)) := by
  constructor
  · intro hN
    unfold ChatPromptFunction.call
    rw [hfmt]
    unfold BaseChatPromptFunction.model
    rw [if_pos hN]
    simp only [runModelSync,
      retryLoopSync_always_validation (pf._model.getD g)
        (pf.buildRequest msgs) (hv _) pf._max_retries 0]
  · intro h0
    refine ⟨by unfold BaseChatPromptFunction.model; rw [if_neg (by simp [h0])], ?_⟩
    unfold ChatPromptFunction.call
    rw [hfmt]
    unfold BaseChatPromptFunction.model
    rw [if_neg (by simp [h0])]
    simp only [runModelSync, hv]

/-- Witness for C3 with retry bound 2 and an always-failing backend:
exactly 3 backend calls occur. -/
theorem retry_bound_witness :
    ChatPromptFunction.call
      (mkBaseChatPromptFunction "f" [] (.base "str") [] [] none 2
        (some ⟨fun _ _ => .error .validation, fun _ _ => .error .validation⟩))
      ⟨fun _ _ => .ok ⟨"r"⟩, fun _ _ => .ok ⟨"r"⟩⟩ [] [] =
      (.error (.backend .validation), 3) :=
  (retry_bound
    (mkBaseChatPromptFunction "f" [] (.base "str") [] [] none 2
      (some ⟨fun _ _ => .error .validation, fun _ _ => .error .validation⟩))
    ⟨fun _ _ => .ok ⟨"r"⟩, fun _ _ => .ok ⟨"r"⟩⟩ [] [] []
    rfl (fun _ _ => rfl)).1 (by simp [mkBaseChatPromptFunction])

theorem model_underlying (pf : BaseChatPromptFunction) (g : ChatModel) :
    (pf.model g).underlying = pf._model.getD g := by
  unfold BaseChatPromptFunction.model
  split <;> rfl

theorem retryLoopAsync_eq_sync (m : ChatModel)
    (h : m.acomplete = m.complete) :
    ∀ (n attempt : Nat) (req : Request),
      retryLoopAsync m req attempt n = retryLoopSync m req attempt n := by
  intro n
  induction n with
  | zero => intro attempt req; simp [retryLoopAsync, retryLoopSync, h]
  | succ n ih =>
    intro attempt req
    simp only [retryLoopAsync, retryLoopSync, h, ih (attempt + 1) req]

theorem runModelAsync_eq_sync (em : EffectiveModel)
    (h : em.underlying.acomplete = em.underlying.complete) (req : Request) :
    runModelAsync em req = runModelSync em req := by
  cases em with
  | plain m =>
    simp only [EffectiveModel.underlying] at h
    simp [runModelAsync, runModelSync, h]
  | retry m n =>
    simp only [EffectiveModel.underlying] at h
    simp [runModelAsync, runModelSync, retryLoopAsync_eq_sync m h]

theorem retryLoopSync_always_ok (m : ChatModel) (req : Request) (r : Reply)
    (h : ∀ i, m.complete req i = .ok r) :
    ∀ n attempt, retryLoopSync m req attempt n = (.ok r, 1) := by
  intro n
  cases n with
  | zero => intro attempt; simp [retryLoopSync, h]
  | succ n => intro attempt; simp [retryLoopSync, h]

/-- C6: with identical call arguments and an identical simulated backend
(its suspending entry point agreeing with its blocking one), the suspending
variant produces exactly the same outcome — same successful result, same
error category, same backend call count — as the blocking variant; and on a
backend that succeeds, the call returns exactly the reply's content payload
unchanged. -/
theorem sync_async_equivalence (pf : BaseChatPromptFunction) (g : ChatModel)
    (args : List Value) (kwargs : List (String × Value))
    (hb : (pf._model.getD g).acomplete = (pf._model.getD g).complete) :
    AsyncChatPromptFunction.call pf g args kwargs =
      ChatPromptFunction.call pf g args kwargs ∧
    (∀ r : Reply, (∀ q i, (pf._model.getD g).complete q i = .ok r) →
      ∀ msgs, pf.format args kwargs = .ok msgs →
        ChatPromptFunction.call pf g args kwargs = (.ok r.content, 1)) := by
  have hu : (pf.model g).underlying.acomplete =
      (pf.model g).underlying.complete := by
    rw [model_underlying]
    exact hb
  constructor
  · unfold AsyncChatPromptFunction.call ChatPromptFunction.call
    cases hf : pf.format args kwargs with
    | error e => rfl
    | ok msgs =>
      dsimp only
      rw [runModelAsync_eq_sync (pf.model g) hu (pf.buildRequest msgs)]
  · intro r hok msgs hfmt
    unfold ChatPromptFunction.call
    rw [hfmt]
    have hgu := model_underlying pf g
    cases hm : pf.model g with
    | plain m =>
      have hmg : m = pf._model.getD g := by rw [← hgu, hm]; rfl
      simp [runModelSync, hmg, hok]
    | retry m n =>
      have hmg : m = pf._model.getD g := by rw [← hgu, hm]; rfl
      simp [runModelSync,
        retryLoopSync_always_ok m (pf.buildRequest msgs) r
          (by rw [hmg]; exact hok (pf.buildRequest msgs)) n 0]

/-- Witness for C6 with a concrete backend whose two entry points agree and
always succeed with content payload `"r"`. -/
theorem sync_async_equivalence_witness :
    AsyncChatPromptFunction.call
      (mkBaseChatPromptFunction "f" [] (.base "str") [] [] none 0 none)
      ⟨fun _ _ => .ok ⟨"r"⟩, fun _ _ => .ok ⟨"r"⟩⟩ [] [] =
      ChatPromptFunction.call
        (mkBaseChatPromptFunction "f" [] (.base "str") [] [] none 0 none)
        ⟨fun _ _ => .ok ⟨"r"⟩, fun _ _ => .ok ⟨"r"⟩⟩ [] [] ∧
    ChatPromptFunction.call
      (mkBaseChatPromptFunction "f" [] (.base "str") [] [] none 0 none)
      ⟨fun _ _ => .ok ⟨"r"⟩, fun _ _ => .ok ⟨"r"⟩⟩ [] [] =
      (.ok "r", 1) :=
  ⟨(sync_async_equivalence
      (mkBaseChatPromptFunction "f" [] (.base "str") [] [] none 0 none)
      ⟨fun _ _ => .ok ⟨"r"⟩, fun _ _ => .ok ⟨"r"⟩⟩ [] [] rfl).1,
    (sync_async_equivalence
      (mkBaseChatPromptFunction "f" [] (.base "str") [] [] none 0 none)
      ⟨fun _ _ => .ok ⟨"r"⟩, fun _ _ => .ok ⟨"r"⟩⟩ [] [] rfl).2
      ⟨"r"⟩ (fun _ _ => rfl) [] rfl⟩

/-- C7: the effective backend handle is resolved fresh on every invocation:
the handle underlying the resolved model is the explicit backend when one is
configured and otherwise the process-wide default looked up at call time, so
an invocation made while the process-wide default is `g` runs against `g` —
a change to the default between two calls is observed by the second call. -/
theorem backend_resolved_fresh (pf : BaseChatPromptFunction) (g : ChatModel) :
    (pf.model g).underlying = pf._model.getD g ∧
    (∀ args kwargs msgs, pf._model = none → pf._max_retries = 0 →
      pf.format args kwargs = .ok msgs →
      ChatPromptFunction.call pf g args kwargs =
        ((match g.complete (pf.buildRequest msgs) 0 with
          | .ok r => .ok r.content
          | .error e => .error (.backend e)), 1)) := by
  refine ⟨model_underlying pf g, ?_⟩
  intro args kwargs msgs hnone h0 hfmt
  unfold ChatPromptFunction.call
  rw [hfmt]
  unfold BaseChatPromptFunction.model
  rw [if_neg (by simp [h0]), hnone]
  simp only [Option.getD_none, runModelSync]
  cases g.complete (pf.buildRequest msgs) 0 <;> rfl

/-- Witness for C7: the same prompt-function invoked under two different
process-wide defaults observes each default in turn. -/
theorem backend_resolved_fresh_witness :
    ChatPromptFunction.call
      (mkBaseChatPromptFunction "f" [] (.base "str") [] [] none 0 none)
      ⟨fun _ _ => .ok ⟨"one"⟩, fun _ _ => .ok ⟨"one"⟩⟩ [] [] =
      (.ok "one", 1) ∧
    ChatPromptFunction.call
      (mkBaseChatPromptFunction "f" [] (.base "str") [] [] none 0 none)
      ⟨fun _ _ => .ok ⟨"two"⟩, fun _ _ => .ok ⟨"two"⟩⟩ [] [] =
      (.ok "two", 1) :=
  ⟨(backend_resolved_fresh
      (mkBaseChatPromptFunction "f" [] (.base "str") [] [] none 0 none)
      ⟨fun _ _ => .ok ⟨"one"⟩, fun _ _ => .ok ⟨"one"⟩⟩).2 [] [] [] rfl rfl rfl,
    (backend_resolved_fresh
      (mkBaseChatPromptFunction "f" [] (.base "str") [] [] none 0 none)
      ⟨fun _ _ => .ok ⟨"two"⟩, fun _ _ => .ok ⟨"two"⟩⟩).2 [] [] [] rfl rfl rfl⟩

theorem copyAlloc_read {α : Type} (h : ListHeap α) (r : Nat) :
    (h.copyAlloc r).1.read (h.copyAlloc r).2 = h.read r := by
  unfold ListHeap.copyAlloc ListHeap.read
  rw [List.get?_eq_getElem?, List.get?_eq_getElem?]
  rw [List.getElem?_append_right (le_refl _)]
  simp

theorem copyAlloc_write_frame {α : Type} (h : ListHeap α) (r : Nat)
    (hr : r < List.length h) (v : List α) :
    ((h.copyAlloc r).1.write (h.copyAlloc r).2 v).read r = h.read r := by
  unfold ListHeap.copyAlloc ListHeap.read ListHeap.write
  rw [List.get?_eq_getElem?, List.get?_eq_getElem?]
  rw [List.getElem?_set_ne (by omega)]
  rw [List.getElem?_append_left hr]

/-- C10: the `functions` and `return_types` accessors each return a fresh
copy of the stored list, so mutating the list obtained from either accessor
leaves the stored list unchanged, and the request built by any subsequent
invocation still carries the originally constructed side-callable list and
Output Variant Set. -/
theorem accessor_copy_frame (hf : ListHeap String) (ht : ListHeap Ty)
    (rf rt : Nat) (h1 : rf < List.length hf) (h2 : rt < List.length ht) :
    ((functionsPropAlloc hf rf).1.read (functionsPropAlloc hf rf).2 =
        hf.read rf) ∧
    (∀ v, ((functionsPropAlloc hf rf).1.write (functionsPropAlloc hf rf).2
        v).read rf = hf.read rf) ∧
    ((returnTypesPropAlloc ht rt).1.read (returnTypesPropAlloc ht rt).2 =
        ht.read rt) ∧
    (∀ v, ((returnTypesPropAlloc ht rt).1.write
        (returnTypesPropAlloc ht rt).2 v).read rt = ht.read rt) ∧
    (∀ (pf : BaseChatPromptFunction) (msgs : List Message),
      (pf.buildRequest msgs).functions = pf._functions ∧
      (pf.buildRequest msgs).output_types = pf._return_types) ∧
    (∀ pf : BaseChatPromptFunction,
      pf.functionsProp = pf._functions ∧
      pf.returnTypesProp = pf._return_types) :=
  ⟨copyAlloc_read hf rf,
    fun v => copyAlloc_write_frame hf rf h1 v,
    copyAlloc_read ht rt,
    fun v => copyAlloc_write_frame ht rt h2 v,
    fun _ _ => ⟨rfl, rfl⟩,
    fun _ => ⟨rfl, rfl⟩⟩

/-- Witness for C10 on a two-cell heap, overwriting the copied list with a
different value. -/
theorem accessor_copy_frame_witness :
    ((functionsPropAlloc [["f"]] 0).1.read (functionsPropAlloc [["f"]] 0).2 =
        ListHeap.read [["f"]] 0) ∧
    (∀ v, ((functionsPropAlloc [["f"]] 0).1.write
        (functionsPropAlloc [["f"]] 0).2 v).read 0 =
        ListHeap.read [["f"]] 0) ∧
    ((returnTypesPropAlloc [[Ty.base "str"]] 0).1.read
        (returnTypesPropAlloc [[Ty.base "str"]] 0).2 =
        ListHeap.read [[Ty.base "str"]] 0) ∧
    (∀ v, ((returnTypesPropAlloc [[Ty.base "str"]] 0).1.write
        (returnTypesPropAlloc [[Ty.base "str"]] 0).2 v).read 0 =
        ListHeap.read [[Ty.base "str"]] 0) ∧
    (∀ (pf : BaseChatPromptFunction) (msgs : List Message),
      (pf.buildRequest msgs).functions = pf._functions ∧
      (pf.buildRequest msgs).output_types = pf._return_types) ∧
    (∀ pf : BaseChatPromptFunction,
      pf.functionsProp = pf._functions ∧
      pf.returnTypesProp = pf._return_types) :=
  accessor_copy_frame [["f"]] [[Ty.base "str"]] 0 0 (by decide) (by decide)

/-- C2: the Output Variant Set is the deduplicated, order-preserving
one-level flattening of the declared return type — a union of three distinct
members resolves to the three-element list in order, a non-union type to a
singleton — it is computed once at construction, and the request built on
every invocation carries exactly the constructed set. -/
theorem return_type_flattening (A B C : Ty) (h1 : A ≠ B) (h2 : A ≠ C)
    (h3 : B ≠ C) :
    split_union_type (.union [A, B, C]) = [A, B, C] ∧
    (∀ s, split_union_type (.base s) = [.base s]) ∧
    (∀ name params rt msgs fns stop mr mdl,
      (mkBaseChatPromptFunction name params rt msgs fns stop mr
        mdl)._return_types = split_union_type rt) ∧
    (∀ (pf : BaseChatPromptFunction) (msgs : List Message),
      (pf.buildRequest msgs).output_types = pf._return_types) := by
  refine ⟨?_, fun s => rfl, fun _ _ _ _ _ _ _ _ => rfl, fun _ _ => rfl⟩
  show dedupFirst [A, B, C] = [A, B, C]
  rw [dedupFirst]
  rw [show List.filter (fun u => u ≠ A) [B, C] = [B, C] by
    simp [List.filter, Ne.symm h1, Ne.symm h2]]
  rw [dedupFirst]
  rw [show List.filter (fun u => u ≠ B) [C] = [C] by
    simp [List.filter, Ne.symm h3]]
  rw [dedupFirst]
  simp [dedupFirst]

/-- Witness for C2 at the union `str | StopToolCall | int` of three distinct
base types. -/
theorem return_type_flattening_witness :
    split_union_type
        (.union [.base "str", .base "StopToolCall", .base "int"]) =
      [.base "str", .base "StopToolCall", .base "int"] ∧
    (∀ s, split_union_type (.base s) = [.base s]) ∧
    (∀ name params rt msgs fns stop mr mdl,
      (mkBaseChatPromptFunction name params rt msgs fns stop mr
        mdl)._return_types = split_union_type rt) ∧
    (∀ (pf : BaseChatPromptFunction) (msgs : List Message),
      (pf.buildRequest msgs).output_types = pf._return_types) :=
  return_type_flattening (.base "str") (.base "StopToolCall") (.base "int")
    (by simp) (by simp) (by simp)

/-- C8: rendering is idempotent and pure — formatting the same templates
with the same arguments twice yields identical message sequences, and the
result is unchanged under any change to the backend configuration
(`_model`, `_max_retries`): rendering neither contacts the backend nor
depends on or mutates any backend-related state of the prompt-function. -/
theorem format_pure_idempotent (pf : BaseChatPromptFunction)
    (args : List Value) (kwargs : List (String × Value)) :
    pf.format args kwargs = pf.format args kwargs ∧
    (∀ (m : Option ChatModel) (mr : Nat),
      BaseChatPromptFunction.format
        { pf with _model := m, _max_retries := mr } args kwargs =
      pf.format args kwargs) :=
  ⟨rfl, fun _ _ => rfl⟩

/-- C9: the decorator factory produces the suspending variant exactly when
the decorated function is a coroutine function and the blocking variant
otherwise; the produced prompt-function is a fresh `BaseChatPromptFunction`
object exposing the original function's introspectable name and
documentation and built from its parameters and return annotation. -/
theorem decorator_variant_metadata (messages : List Message)
    (functions : List String) (stop : Option (List String))
    (max_retries : Nat) (model : Option ChatModel) (func : UserFunc) :
    (chatprompt messages functions stop max_retries model func).isAsync =
      func.isCoroutine ∧
    (chatprompt messages functions stop max_retries model func).toPF.wrapperName =
      func.name ∧
    (chatprompt messages functions stop max_retries model func).toPF.wrapperDoc =
      func.doc ∧
    (chatprompt messages functions stop max_retries model func).toPF.parameters =
      func.params ∧
    (chatprompt messages functions stop max_retries model func).toPF.return_type =
      func.returnAnnotation := by
  cases hc : func.isCoroutine <;>
    simp [chatprompt, hc, update_wrapper, mkBaseChatPromptFunction,
      PromptVariant.isAsync, PromptVariant.toPF]
